import Mathlib

/-!
Verification development for the `web-search-mcp-server-authless` worker.

The TypeScript sources are embedded shallowly:
  * text is modelled as `List Char` (`Str`), matching JavaScript strings
    character by character; `chars` injects Lean string literals;
  * `Math.ceil(a / b)` on positive integers is `ceilDiv`;
  * the external collaborators (the completion API, the search API and the
    page reader) are oracles passed in as functions: an attempt either
    throws (`none` / `.error msg`) or returns a payload, indexed by the
    attempt number exactly as the retry loops consume them;
  * the retry loops of `getAiResponse`, `getSearchResults` and
    `getBrowseResults` are written as the same loops with an explicit
    attempt index, instrumented to record the number of calls made and the
    backoff sleeps requested, which the source performs via `setTimeout`;
  * JavaScript truthiness on strings (`""` is falsy) is modelled explicitly
    wherever the source branches on a string value.
-/

/-- JavaScript strings, character by character. -/
abbrev Str := List Char

/-- A Lean string literal as a `Str`. -/
def chars (s : String) : Str := s.toList

/-- `Math.ceil(a / b)` for natural `a` and positive natural `b`. -/
def ceilDiv (a b : Nat) : Nat := (a + b - 1) / b

/-- First occurrence of `pat` inside a list: `some (pre, suf)` with the text
before the match and the text after it, `none` when `pat` does not occur.
This is the search that `String.prototype.indexOf` and the regex engine
perform left to right. -/
def findSub (pat : Str) : Str → Option (Str × Str)
  | [] => if pat = [] then some ([], []) else none
  | c :: cs =>
    if pat.isPrefixOf (c :: cs) then some ([], (c :: cs).drop pat.length)
    else (findSub pat cs).map fun pr => (c :: pr.1, pr.2)

/-- `haystack.includes(pat)`. -/
def containsSub (pat s : Str) : Bool := (findSub pat s).isSome

/-- `String.prototype.trim()`: whitespace removed from both ends. -/
def trimStr (s : Str) : Str :=
  ((s.dropWhile Char.isWhitespace).reverse.dropWhile Char.isWhitespace).reverse

/-- The opening delimiter of a reasoning block. -/
def thinkOpen : Str := chars "<think>"

/-- The closing delimiter of a reasoning block. -/
def thinkClose : Str := chars "</think>"

/-- One pass of `content.replace(/<think>[\s\S]*?<\/think>/g, "")`, written
with a step counter: the regex engine finds the leftmost `<think>` that is
followed by a `</think>`, removes through the earliest such closer, and
resumes scanning after the removed block.  Each step removes at least the
fifteen delimiter characters, so `s.length` steps always suffice and the
fuel branch is never reached from `stripThink`. -/
def stripThinkAux : Nat → Str → Str
  | 0, s => s
  | fuel + 1, s =>
    match findSub thinkOpen s with
    | none => s
    | some (pre, rest) =>
      match findSub thinkClose rest with
      | none => s
      | some (_, suf) => pre ++ stripThinkAux fuel suf

/-- `content.replace(/<think>[\s\S]*?<\/think>/g, "")` from `getAiResponse`. -/
def stripThink (s : Str) : Str := stripThinkAux s.length s

/-- What one run of `getAiResponse` did: its return value (`none` is the
`null` sentinel), how many completion calls it made, and the backoff sleeps
(in milliseconds) it requested between failed attempts. -/
structure AiRun where
  result : Option Str
  attempts : Nat
  sleeps : List Nat
  deriving Repr, DecidableEq

/-- The retry loop of `getAiResponse`: `env j` is what the completion call
of attempt `j` does (`none` = the call threw, `some c` = it returned content
`c`).  `i` is the current loop index, the last argument the number of
iterations left, so `aiLoop env maxRetry 0 maxRetry` is
`for (let i = 0; i < maxRetry; i++)`.  A successful response is returned as
`content.replace(/<think>…<\/think>/g, "").trim()`; a failed attempt `i`
sleeps `1000 * 2^i` milliseconds when `i < maxRetry - 1`. -/
def aiLoop (env : Nat → Option Str) (maxRetry : Nat) (i : Nat) : Nat → AiRun
  | 0 => ⟨none, maxRetry, []⟩
  | remaining + 1 =>
    match env i with
    | some content => ⟨some (trimStr (stripThink content)), i + 1, []⟩
    | none =>
      let rest := aiLoop env maxRetry (i + 1) remaining
      ⟨rest.result, rest.attempts,
        (if i < maxRetry - 1 then [1000 * 2 ^ i] else []) ++ rest.sleeps⟩

/-- `getAiResponse(query, maxRetry)`, the completion call abstracted into
`env` (the query string is fixed by the caller and folded into `env`). -/
def getAiResponse (env : Nat → Option Str) (maxRetry : Nat := 2) : AiRun :=
  aiLoop env maxRetry 0 maxRetry

/-- One organic entry of a Serper search response. -/
structure SearchResult where
  title : Str
  link : Option Str := none
  url : Option Str := none
  snippet : Option Str := none
  description : Option Str := none
  extra_snippets : Option (List Str) := none

/-- JavaScript `a || b` on an optional string: `undefined` and `""` fall
through to `b`. -/
def orElseStr (a : Option Str) (b : Str) : Str :=
  match a with
  | some s => if s = [] then b else s
  | none => b

/-- The snippet chosen for one result in `getBriefText`:
`extra_snippets` joined by newlines when present and non-empty, else a
truthy `snippet`, else `description || ""`. -/
def briefSnippet (content : SearchResult) : Str :=
  match content.extra_snippets with
  | some l => if l.length > 0 then (l.intersperse (chars "\n")).flatten
              else orElseStr content.snippet (content.description.getD [])
  | none => orElseStr content.snippet (content.description.getD [])

/-- `getBriefText(contents)`: the `<title>/<url>/<snippet>` block per result,
concatenated and trimmed. -/
def getBriefText (contents : List SearchResult) : Str :=
  trimStr (contents.foldl (fun acc content =>
    acc ++ chars "<title>" ++ content.title ++ chars "</title>\n<url>"
        ++ orElseStr content.url (orElseStr content.link [])
        ++ chars "</url>\n<snippet>\n" ++ briefSnippet content
        ++ chars "\n</snippet>\n\n") [])

/-- The retry loop of `getSearchResults`: `env j` is what attempt `j` of
`searchGoogle` does (`none` = it threw, `some rs` = it returned the organic
results `rs`).  `acc` is the current value of the `sourceText` variable,
`i` the loop index, the last argument the iterations left.  The loop breaks
at the first non-empty brief text. -/
def searchLoop (env : Nat → Option (List SearchResult)) (acc : Str) (i : Nat) : Nat → Str
  | 0 => acc
  | remaining + 1 =>
    match env i with
    | some results =>
      let t := getBriefText results
      if t = [] then searchLoop env t (i + 1) remaining else t
    | none => searchLoop env acc (i + 1) remaining

/-- The generic empty-result message of `getSearchResults`. -/
def emptySearchMsg : Str := chars "Search result is empty. Please try again."

/-- The explanatory prefix placed before a successful quoted-query fallback. -/
def fallbackMessage (query : Str) : Str :=
  chars "Search result for query [" ++ query
    ++ chars "] is empty. Return search result for cleaned query instead."

/-- `query.replace(/"/g, "")`. -/
def removeQuotes (query : Str) : Str := query.filter fun c => c != '"'

/-- `getSearchResults(query, maxRetry)`: the retrieval collaborator is the
oracle `env` (per query, per attempt).  An empty result for a query that
contains a double quote falls back to one recursive call on the quote-free
cleaned query, exactly as the source does; the recursion is well founded
because the cleaned query contains no quote. -/
def getSearchResults (env : Str → Nat → Option (List SearchResult))
    (query : Str) (maxRetry : Nat := 3) : Str :=
  if trimStr query = [] then emptySearchMsg
  else
    let sourceText := searchLoop (env query) [] 0 maxRetry
    if sourceText = [] then
      if hq : query.contains '"' then
        let fallback := getSearchResults env (removeQuotes query) 3
        if fallback ≠ [] ∧ containsSub (chars "Please try again") fallback = false then
          fallbackMessage query ++ chars "\n\n" ++ fallback
        else emptySearchMsg
      else emptySearchMsg
    else sourceText
termination_by query.count '"'
decreasing_by
  have h0 : (removeQuotes query).count '"' = 0 := by
    simp [removeQuotes, List.count_eq_zero, List.mem_filter]
  have h1 : '"' ∈ query := by
    simpa [List.contains] using hq
  have h2 : 0 < query.count '"' := List.count_pos_iff.mpr h1
  omega

/-- `getSearchResults` as the source behaves when the quoted-query fallback
branch cannot fire: an empty retrieval yields the generic message. -/
def getSearchResultsOnce (env : Str → Nat → Option (List SearchResult))
    (query : Str) (maxRetry : Nat := 3) : Str :=
  if trimStr query = [] then emptySearchMsg
  else
    let sourceText := searchLoop (env query) [] 0 maxRetry
    if sourceText = [] then emptySearchMsg else sourceText

/-- The fixed token budget of `getBrowseAnswer`. -/
def tokenLimit : Nat := 190000

/-- The character budget: four characters per token. -/
def charLimit : Nat := tokenLimit * 4

/-- `s.slice(a, b)` for `0 ≤ a ≤ b`: the characters at positions
`[a, min b s.length)`. -/
def jsSlice (s : Str) (a b : Nat) : Str := (s.drop a).take (b - a)

/-- The chunks `getBrowseAnswer` slices an oversized text into:
`numSplit = ceil(length / charLimit)`, `chunkLen = ceil(length / numSplit)`,
chunk `i` is `sourceText.slice(i * chunkLen, (i + 1) * chunkLen + 1024)`. -/
def browseChunks (sourceText : Str) : List Str :=
  let numSplit := ceilDiv sourceText.length charLimit
  let chunkLen := ceilDiv sourceText.length numSplit
  (List.range numSplit).map fun i =>
    jsSlice sourceText (i * chunkLen) ((i + 1) * chunkLen + 1024)

/-- The per-chunk prompt of the oversized branch of `getBrowseAnswer`. -/
def mkChunkPrompt (chunk browseQuery : Str) : Str :=
  chars "Please read the source content and answer a following question:\n--- begin of source content ---\n"
    ++ chunk
    ++ chars "\n--- end of source content ---\n\nIf there is no relevant information, please clearly refuse to answer.\nWhen answering, please identify and extract the original content as the evidence. Now answer the question based on the above content:\n"
    ++ browseQuery

/-- The single prompt of the small-text branch of `getBrowseAnswer` (note
the delimiters without inner spaces, as in the source). -/
def mkSinglePrompt (sourceText browseQuery : Str) : Str :=
  chars "Please read the source content and answer a following question:\n---begin of source content---\n"
    ++ sourceText
    ++ chars "\n---end of source content---\n\nIf there is no relevant information, please clearly refuse to answer.\nWhen answering, please identify and extract the original content as the evidence. Now answer the question based on the above content:\n"
    ++ browseQuery

/-- JavaScript `!r` on a nullable string: `null` and `""` are falsy. -/
def jsFalsyOpt : Option Str → Bool
  | none => true
  | some s => s.isEmpty

/-- The `part i` delimiter wrapper of the reduce step of `getBrowseAnswer`. -/
def wrapPart (idx : Nat) (t : Str) : Str :=
  chars "--- begin of result part " ++ chars (toString idx) ++ chars " ---\n"
    ++ t
    ++ chars "\n--- end of result part " ++ chars (toString idx) ++ chars " ---\n\n"

/-- The reduce loop of `getBrowseAnswer`: walk the per-chunk results in
order; a falsy entry (the `null` sentinel or `""`) aborts with `null`,
otherwise each answer is appended wrapped in its `part idx` delimiter.
`idx` is the 1-based part number, `acc` the accumulated composite. -/
def combineLoop (idx : Nat) (acc : Str) : List (Option Str) → Option Str
  | [] => some acc
  | r :: rs =>
    if jsFalsyOpt r then none
    else combineLoop (idx + 1) (acc ++ wrapPart idx (r.getD [])) rs

/-- The explanatory note prefixed to a split composite answer. -/
def splitNote : Str :=
  chars "Since the content is too long, the result is split and answered separately. Please combine the results to get the complete answer.\n"

/-- All chunk answers wrapped in their `part` delimiters and concatenated,
starting at part number `idx`: the closed form of a fully successful
`combineLoop`. -/
def wrapAll (idx : Nat) : List Str → Str
  | [] => []
  | t :: ts => wrapPart idx t ++ wrapAll (idx + 1) ts

/-- `getBrowseAnswer(sourceText, browseQuery, maxRetry)`: the completion
collaborator is `aiEnv` (per prompt, per attempt).  A text over the
character budget is split into `browseChunks`, one `getAiResponse` per
chunk, and the results reduced by `combineLoop`; a small text goes through
one `getAiResponse` on the single prompt. -/
def getBrowseAnswer (aiEnv : Str → Nat → Option Str)
    (sourceText browseQuery : Str) (maxRetry : Nat := 2) : Option Str :=
  if sourceText.length > charLimit then
    let results := (browseChunks sourceText).map fun chunk =>
      (getAiResponse (aiEnv (mkChunkPrompt chunk browseQuery)) maxRetry).result
    combineLoop 1 splitNote results
  else
    (getAiResponse (aiEnv (mkSinglePrompt sourceText browseQuery)) maxRetry).result

/-- Outcome of the page-fetch retry loop of `getBrowseResults`: either the
immediate client-error return or the final value of `sourceText`, each with
the number of `readJina` calls made. -/
inductive FetchOut where
  | denied (attemptsMade : Nat)
  | text (sourceText : Str) (attemptsMade : Nat)
  deriving Repr, DecidableEq

/-- The fetch retry loop of `getBrowseResults`: `env j` is what attempt `j`
of `readJina` does (`.error m` = it threw an error with message `m`,
`.ok t` = it returned page text `t`).  An error whose message contains
`"Client Error"` returns immediately; a non-empty page text breaks the
loop; an empty one keeps looping. -/
def browseFetchLoop (env : Nat → Except Str Str) (acc : Str) (i : Nat) : Nat → FetchOut
  | 0 => .text acc i
  | remaining + 1 =>
    match env i with
    | .ok t => if t = [] then browseFetchLoop env t (i + 1) remaining else .text t (i + 1)
    | .error m =>
      if containsSub (chars "Client Error") m then .denied (i + 1)
      else browseFetchLoop env acc (i + 1) remaining

/-- What one run of `getBrowseResults` did: the returned text, how many
page-fetch calls were made, and whether the answerer pipeline
(`getBrowseAnswer`) was invoked. -/
structure BrowseRun where
  output : Str
  fetchAttempts : Nat
  answererInvoked : Bool
  deriving Repr, DecidableEq

/-- The client-error return of `getBrowseResults`. -/
def deniedMsg : Str := chars "Access to this URL is denied. Please try again."

/-- The generic failure return of `getBrowseResults`. -/
def browseErrMsg : Str := chars "Browse error. Please try again."

/-- `getBrowseResults(url, browseQuery, maxRetry)`: the page reader is the
oracle `fetchEnv` (per attempt; the url is fixed by the caller), the
completion collaborator `aiEnv`.  Mirrors the source: fetch with retries,
bail out on a client error, apology on empty text, else answer through
`getBrowseAnswer` with the same retry budget and `browseQuery || "Detailed
summary of the page."`, the answer trimmed and `null`/empty replaced by the
apology. -/
def getBrowseResults (fetchEnv : Nat → Except Str Str) (aiEnv : Str → Nat → Option Str)
    (browseQuery : Str) (maxRetry : Nat := 3) : BrowseRun :=
  match browseFetchLoop fetchEnv [] 0 maxRetry with
  | .denied k => ⟨deniedMsg, k, false⟩
  | .text t k =>
    if t = [] ∨ trimStr t = [] then ⟨browseErrMsg, k, false⟩
    else
      let query := if browseQuery = [] then chars "Detailed summary of the page." else browseQuery
      match getBrowseAnswer aiEnv t query maxRetry with
      | none => ⟨browseErrMsg, k, true⟩
      | some out => ⟨if trimStr out = [] then browseErrMsg else trimStr out, k, true⟩

/-- `Array.prototype.join(sep)`. -/
def joinSep (sep : Str) : List Str → Str
  | [] => []
  | [x] => x
  | x :: y :: xs => x ++ sep ++ joinSep sep (y :: xs)

/-- The delimited block the `multi_search` handler builds for one query. -/
def searchBlock (env : Str → Nat → Option (List SearchResult)) (q : Str) : Str :=
  chars "--- search result for [" ++ q ++ chars "] ---\n"
    ++ getSearchResults env q 3
    ++ chars "\n--- end of search result ---"

/-- The `multi_search` handler: one `search` per query, blocks joined with
`"\n\n"` in the order of the input list (`Promise.all` keeps input order). -/
def multiSearch (env : Str → Nat → Option (List SearchResult)) (queries : List Str) : Str :=
  joinSep (chars "\n\n") (queries.map (searchBlock env))

/-- The delimited block the `multi_browse` handler builds for one url. -/
def browseBlock (fetchOf : Str → Nat → Except Str Str) (aiEnv : Str → Nat → Option Str)
    (query : Option Str) (url : Str) : Str :=
  chars "--- answer based on [" ++ url ++ chars "] ---\n"
    ++ (getBrowseResults (fetchOf url) aiEnv (query.getD []) 3).output
    ++ chars "\n--- end of answer ---"

/-- The `multi_browse` handler: one `browse` per url, blocks joined with
`"\n\n"` in the order of the input list. -/
def multiBrowse (fetchOf : Str → Nat → Except Str Str) (aiEnv : Str → Nat → Option Str)
    (urls : List Str) (query : Option Str) : Str :=
  joinSep (chars "\n\n") (urls.map (browseBlock fetchOf aiEnv query))

/-- A parsed JSON-RPC request body as the `/mcp/messages` handler reads it:
`method`, the correlation `id`, and for `tools/call` the requested tool
name and its (serialized) arguments. -/
structure RpcRequest where
  method : String
  id : Nat
  toolName : String := ""
  args : String := ""

/-- A frame the dispatcher enqueues onto the session's stream, each carried
as an `event: message` JSON-RPC payload: the `tools/list` listing, the
`initialize` result, a tool result, or an error `{code, message}`. -/
inductive RpcEvent where
  | toolsList (id : Nat)
  | initResult (id : Nat)
  | callResult (id : Nat) (out : String)
  | rpcError (id : Nat) (code : Int) (message : String)
  deriving Repr, DecidableEq

/-- The tool names registered by `init()`, in registration order. -/
def knownTools : List String := ["search", "browse", "multi_search", "multi_browse"]

/-- The `POST /mcp/messages` handler: `sessions` is the session registry,
`sessionId` the query parameter, `req` the parsed body, and `exec` what
running a registered tool's handler does (`.error e` = the handler threw
`e`).  Returns the HTTP status and the frames written onto the session's
stream (the asynchronous `tools/call` write included). -/
def handlePost (sessions : List String) (exec : String → String → Except String String)
    (sessionId : Option String) (req : RpcRequest) : Nat × List RpcEvent :=
  match sessionId with
  | none => (400, [])
  | some sid =>
    if sessions.contains sid then
      if req.method = "tools/list" then (202, [RpcEvent.toolsList req.id])
      else if req.method = "tools/call" then
        if knownTools.contains req.toolName then
          (202, match exec req.toolName req.args with
            | .ok out => [RpcEvent.callResult req.id out]
            | .error e => [RpcEvent.rpcError req.id (-32000) e])
        else (202, [RpcEvent.rpcError req.id (-32601) "Tool not found"])
      else if req.method = "notifications/initialized" ∨ req.method = "initialize" then
        (202, if req.method = "initialize" then [RpcEvent.initResult req.id] else [])
      else (501, [])
    else (404, [])

/-- A concrete text one character over the budget, used to instantiate the
oversized branch of `getBrowseAnswer`. -/
def bigS : Str := List.replicate (charLimit + 1) 'a'

/-- Attempt `j` of `searchGoogle` yielded empty content: the call threw, or
its results' brief text is empty. -/
def searchAttemptEmpty (env : Nat → Option (List SearchResult)) (j : Nat) : Prop :=
  match env j with
  | none => True
  | some rs => getBriefText rs = []

/-- A `readJina` attempt that does not leave the fetch loop: it threw a
non-client error, or returned the empty page text. -/
def fetchContinues (e : Except Str Str) : Prop :=
  match e with
  | .ok t => t = []
  | .error m => containsSub (chars "Client Error") m = false

/-- A completion collaborator whose every call succeeds with the empty
string. -/
def constEmptyAi : Str → Nat → Option Str := fun _ _ => some []

/-- A completion collaborator whose every call succeeds with `"ok"`. -/
def constOkAi : Str → Nat → Option Str := fun _ _ => some (chars "ok")

/-- A retrieval collaborator that answers the query `a` with one result and
throws on every other query. -/
def oneHitSearchEnv : Str → Nat → Option (List SearchResult) :=
  fun q _ =>
    if q = chars "a" then
      some [{ title := chars "T", url := some (chars "u"), snippet := some (chars "s") }]
    else none

/-! ## Arithmetic of `Math.ceil` division -/

lemma ceilDiv_le {b : Nat} (hb : 0 < b) {a n : Nat} (h : a ≤ n * b) : ceilDiv a b ≤ n := by
  rw [ceilDiv, Nat.div_le_iff_le_mul_add_pred hb]
  rw [Nat.mul_comm] at h
  omega

lemma le_ceilDiv {b : Nat} (hb : 0 < b) {a n : Nat} (h : n * b < a + b) : n ≤ ceilDiv a b := by
  rw [ceilDiv, Nat.le_div_iff_mul_le hb]
  omega

lemma le_ceilDiv_mul {b : Nat} (hb : 0 < b) (a : Nat) : a ≤ ceilDiv a b * b := by
  by_contra h
  push_neg at h
  have h2 : (ceilDiv a b + 1) * b < a + b := by
    rw [Nat.add_mul, Nat.one_mul]
    omega
  have := le_ceilDiv hb h2
  omega

lemma ceilDiv_pos {b : Nat} (hb : 0 < b) {a : Nat} (ha : 0 < a) : 0 < ceilDiv a b := by
  have h1 : 1 * b < a + b := by rw [Nat.one_mul]; omega
  exact le_ceilDiv hb h1

lemma ceilDiv_pred_mul_lt {b : Nat} (hb : 0 < b) {a : Nat} (ha : 0 < a) :
    (ceilDiv a b - 1) * b < a := by
  by_contra h
  push_neg at h
  have h2 := ceilDiv_le hb h
  have h3 := ceilDiv_pos hb ha
  omega

/-- The number the source computes, `numSplit = ceil(L/C)`, is a fixed point
of `n ↦ ceil(L / ceil(L/n))`: splitting `L` into `numSplit` parts of length
`ceil(L/numSplit)` needs exactly `numSplit` parts again. -/
lemma ceilDiv_ceilDiv_ceilDiv {L C : Nat} (hL : 0 < L) (hC : 0 < C) :
    ceilDiv L (ceilDiv L (ceilDiv L C)) = ceilDiv L C := by
  have hn : 0 < ceilDiv L C := ceilDiv_pos hC hL
  have hk : 0 < ceilDiv L (ceilDiv L C) := ceilDiv_pos hn hL
  apply Nat.le_antisymm
  · apply ceilDiv_le hk
    have h := le_ceilDiv_mul hn L
    calc L ≤ ceilDiv L (ceilDiv L C) * ceilDiv L C := h
      _ = ceilDiv L C * ceilDiv L (ceilDiv L C) := Nat.mul_comm _ _
  · apply le_ceilDiv hk
    have h1 : (ceilDiv L C - 1) * C < L := ceilDiv_pred_mul_lt hC hL
    have h2 : ceilDiv L (ceilDiv L C) ≤ C := by
      apply ceilDiv_le hn
      have h3 := le_ceilDiv_mul hC L
      calc L ≤ ceilDiv L C * C := h3
        _ = C * ceilDiv L C := Nat.mul_comm _ _
    have h3 : (ceilDiv L C - 1) * ceilDiv L (ceilDiv L C) ≤ (ceilDiv L C - 1) * C :=
      Nat.mul_le_mul_left _ h2
    have h4 : ceilDiv L C * ceilDiv L (ceilDiv L C)
        = (ceilDiv L C - 1) * ceilDiv L (ceilDiv L C) + ceilDiv L (ceilDiv L C) := by
      obtain ⟨m, hm⟩ : ∃ m, ceilDiv L C = m + 1 := ⟨ceilDiv L C - 1, by omega⟩
      rw [hm]
      simp [Nat.succ_mul]
    omega

lemma charLimit_pos : 0 < charLimit := by
  rw [charLimit, tokenLimit]
  omega

/-- C1. For every source text longer than the character budget, the
oversized branch of `getBrowseAnswer` issues one completion call per entry
of `browseChunks`, and that count is exactly
`ceil(L / ceil(L / ceil(L / charLimit)))`. -/
theorem browseChunks_count (s : Str) (h : s.length > charLimit) :
    (browseChunks s).length
      = ceilDiv s.length (ceilDiv s.length (ceilDiv s.length charLimit)) := by
  unfold browseChunks
  simp only [List.length_map, List.length_range]
  have hL : 0 < s.length := by have := charLimit_pos; omega
  exact (ceilDiv_ceilDiv_ceilDiv hL charLimit_pos).symm

/-- C1, witnessed on a text one character over the budget. -/
theorem browseChunks_count_witness :
    (browseChunks bigS).length
      = ceilDiv bigS.length (ceilDiv bigS.length (ceilDiv bigS.length charLimit)) :=
  browseChunks_count bigS (by simp [bigS])

/-! ## The chunk slices (C2) -/

lemma jsSlice_length (s : Str) (a b : Nat) :
    (jsSlice s a b).length = min b s.length - a := by
  simp only [jsSlice, List.length_take, List.length_drop]
  omega

lemma jsSlice_getD (s : Str) (a b j : Nat) (d : Char) (hj : j < (jsSlice s a b).length) :
    (jsSlice s a b).getD j d = s.getD (a + j) d := by
  have hj' : j < (jsSlice s a b).length := hj
  rw [jsSlice_length] at hj'
  have hlt : a + j < s.length := by omega
  have hjb : j < b - a := by
    simp only [jsSlice, List.length_take, List.length_drop] at hj
    omega
  rw [List.getD_eq_getElem _ _ hj, List.getD_eq_getElem _ _ hlt]
  simp only [jsSlice]
  rw [List.getElem_take, List.getElem_drop]

lemma browseChunks_getD (s : Str) (i : Nat) (hi : i < ceilDiv s.length charLimit) :
    (browseChunks s).getD i []
      = jsSlice s (i * ceilDiv s.length (ceilDiv s.length charLimit))
          ((i + 1) * ceilDiv s.length (ceilDiv s.length charLimit) + 1024) := by
  unfold browseChunks
  rw [List.getD_eq_getElem _ _ (by simpa using hi)]
  simp

/-- C2. For a text over the budget, with `numSplit = ceil(L/charLimit)` and
`chunkLen = ceil(L/numSplit)`, the `i`-th chunk handed to the completion
call is exactly the slice `[i*chunkLen, (i+1)*chunkLen + 1024)` of the
source: its length is `min ((i+1)*chunkLen + 1024) L - i*chunkLen` (the
final chunk clips at the text's end) and its `j`-th character is the
source's character at position `i*chunkLen + j`. -/
theorem browseChunks_slice (s : Str) (h : s.length > charLimit) (i : Nat)
    (hi : i < ceilDiv s.length charLimit) :
    ((browseChunks s).getD i []).length
      = min ((i + 1) * ceilDiv s.length (ceilDiv s.length charLimit) + 1024) s.length
        - i * ceilDiv s.length (ceilDiv s.length charLimit)
    ∧ ∀ j : Nat, j < ((browseChunks s).getD i []).length →
        ((browseChunks s).getD i []).getD j 'a'
          = s.getD (i * ceilDiv s.length (ceilDiv s.length charLimit) + j) 'a' := by
  rw [browseChunks_getD s i hi]
  exact ⟨jsSlice_length s _ _, fun j hj => jsSlice_getD s _ _ j 'a' hj⟩

/-- C2, witnessed on the first chunk of a text one character over the
budget. -/
theorem browseChunks_slice_witness :
    ((browseChunks bigS).getD 0 []).length
      = min ((0 + 1) * ceilDiv bigS.length (ceilDiv bigS.length charLimit) + 1024) bigS.length
        - 0 * ceilDiv bigS.length (ceilDiv bigS.length charLimit)
    ∧ ∀ j : Nat, j < ((browseChunks bigS).getD 0 []).length →
        ((browseChunks bigS).getD 0 []).getD j 'a'
          = bigS.getD (0 * ceilDiv bigS.length (ceilDiv bigS.length charLimit) + j) 'a' :=
  browseChunks_slice bigS (by simp [bigS]) 0
    (ceilDiv_pos charLimit_pos (by simp [bigS]))

/-! ## The reduce step of `getBrowseAnswer` (C3, C10) -/

lemma combineLoop_none {results : List (Option Str)}
    (h : ∃ r ∈ results, jsFalsyOpt r = true) (idx : Nat) (acc : Str) :
    combineLoop idx acc results = none := by
  induction results generalizing idx acc with
  | nil => simp at h
  | cons r rs ih =>
    by_cases hr : jsFalsyOpt r = true
    · simp [combineLoop, hr]
    · have htail : ∃ x ∈ rs, jsFalsyOpt x = true := by
        rcases h with ⟨x, hx, hfx⟩
        rcases List.mem_cons.mp hx with h1 | h1
        · exact absurd (h1 ▸ hfx) hr
        · exact ⟨x, h1, hfx⟩
      simp [combineLoop, hr, ih htail]

lemma combineLoop_some {results : List (Option Str)}
    (h : ∀ r ∈ results, jsFalsyOpt r = false) (idx : Nat) (acc : Str) :
    combineLoop idx acc results
      = some (acc ++ wrapAll idx (results.map fun r => r.getD [])) := by
  induction results generalizing idx acc with
  | nil => simp [combineLoop, wrapAll]
  | cons r rs ih =>
    have hr : jsFalsyOpt r = false := h r (List.mem_cons_self r rs)
    have htail : ∀ x ∈ rs, jsFalsyOpt x = false := fun x hx => h x (List.mem_cons_of_mem r hx)
    simp only [combineLoop, hr, Bool.false_eq_true, if_false, List.map_cons, wrapAll,
      ih htail]
    rw [List.append_assoc]

/-- C10. In the oversized branch, a chunk completion that succeeds with the
empty string is treated like a failure: even when every chunk call
succeeds, one empty per-chunk answer makes `getBrowseAnswer` return the
`null` sentinel. -/
theorem getBrowseAnswer_empty_chunk (aiEnv : Str → Nat → Option Str) (s q : Str) (n : Nat)
    (hlen : s.length > charLimit)
    (hok : ∀ chunk ∈ browseChunks s,
      (getAiResponse (aiEnv (mkChunkPrompt chunk q)) n).result ≠ none)
    (hempty : ∃ chunk ∈ browseChunks s,
      (getAiResponse (aiEnv (mkChunkPrompt chunk q)) n).result = some []) :
    getBrowseAnswer aiEnv s q n = none := by
  unfold getBrowseAnswer
  rw [if_pos hlen]
  apply combineLoop_none
  rcases hempty with ⟨c, hc, he⟩
  exact ⟨_, List.mem_map_of_mem _ hc, by simp [jsFalsyOpt, he]⟩

/-- C10, witnessed with a collaborator that always answers `""`. -/
theorem getBrowseAnswer_empty_chunk_witness :
    getBrowseAnswer constEmptyAi bigS [] 2 = none := by
  have hlen : bigS.length > charLimit := by simp [bigS]
  have hres : ∀ p : Str, (getAiResponse (constEmptyAi p) 2).result = some [] := by
    intro p
    simp [constEmptyAi, getAiResponse, aiLoop, stripThink, stripThinkAux, trimStr]
  refine getBrowseAnswer_empty_chunk constEmptyAi bigS [] 2 hlen
    (fun chunk _ => by simp [hres]) ?_
  have hne : browseChunks bigS ≠ [] := by
    have hpos : 0 < (browseChunks bigS).length := by
      rw [browseChunks_count bigS hlen]
      exact ceilDiv_pos (ceilDiv_pos (ceilDiv_pos charLimit_pos (by simp [bigS]))
        (by simp [bigS])) (by simp [bigS])
    exact List.ne_nil_of_length_pos hpos
  rcases List.exists_mem_of_ne_nil _ hne with ⟨c, hc⟩
  exact ⟨c, hc, hres _⟩

/-- C3's counterexample: with every chunk call succeeding (no retry budget
exhausted) but answering `""`, the composite is the `null` sentinel, not
the concatenation of delimited parts the claim promises. -/
theorem getBrowseAnswer_all_or_nothing_cex :
    bigS.length > charLimit
    ∧ (∀ chunk ∈ browseChunks bigS,
        (getAiResponse (constEmptyAi (mkChunkPrompt chunk [])) 2).result ≠ none)
    ∧ getBrowseAnswer constEmptyAi bigS [] 2 = none
    ∧ ∀ t : Str, getBrowseAnswer constEmptyAi bigS [] 2 ≠ some t := by
  have hres : ∀ p : Str, (getAiResponse (constEmptyAi p) 2).result = some [] := by
    intro p
    simp [constEmptyAi, getAiResponse, aiLoop, stripThink, stripThinkAux, trimStr]
  have hlen : bigS.length > charLimit := by simp [bigS]
  have hnone : getBrowseAnswer constEmptyAi bigS [] 2 = none := by
    unfold getBrowseAnswer
    rw [if_pos hlen]
    apply combineLoop_none
    have hne : browseChunks bigS ≠ [] := by
      have hpos : 0 < (browseChunks bigS).length := by
        rw [browseChunks_count bigS hlen]
        exact ceilDiv_pos (ceilDiv_pos (ceilDiv_pos charLimit_pos (by simp [bigS]))
          (by simp [bigS])) (by simp [bigS])
      exact List.ne_nil_of_length_pos hpos
    rcases List.exists_mem_of_ne_nil _ hne with ⟨c, hc⟩
    exact ⟨_, List.mem_map_of_mem _ hc, by simp [jsFalsyOpt, hres]⟩
  exact ⟨hlen, fun chunk _ => by simp [hres], hnone, fun t => by simp [hnone]⟩

/-- C3 as amended: a failed chunk call (the `null` sentinel) makes the
composite the sentinel — never a partial composite — and when every chunk
call succeeds with a non-empty answer the composite is the split note
followed by every answer wrapped in its `part i` delimiter.  (A successful
but empty chunk answer also yields the sentinel, see C10.) -/
theorem getBrowseAnswer_all_or_nothing (aiEnv : Str → Nat → Option Str) (s q : Str) (n : Nat)
    (hlen : s.length > charLimit) :
    ((∃ chunk ∈ browseChunks s,
        (getAiResponse (aiEnv (mkChunkPrompt chunk q)) n).result = none) →
      getBrowseAnswer aiEnv s q n = none)
    ∧ ((∀ chunk ∈ browseChunks s, ∃ t,
          (getAiResponse (aiEnv (mkChunkPrompt chunk q)) n).result = some t ∧ t ≠ []) →
      getBrowseAnswer aiEnv s q n
        = some (splitNote ++ wrapAll 1 ((browseChunks s).map fun chunk =>
            ((getAiResponse (aiEnv (mkChunkPrompt chunk q)) n).result).getD []))) := by
  constructor
  · intro hfail
    unfold getBrowseAnswer
    rw [if_pos hlen]
    apply combineLoop_none
    rcases hfail with ⟨c, hc, he⟩
    exact ⟨_, List.mem_map_of_mem _ hc, by simp [jsFalsyOpt, he]⟩
  · intro hall
    unfold getBrowseAnswer
    rw [if_pos hlen]
    rw [combineLoop_some]
    · rw [List.map_map]
      rfl
    · intro r hr
      rcases List.mem_map.mp hr with ⟨c, hc, rfl⟩
      rcases hall c hc with ⟨t, ht, htne⟩
      simp [jsFalsyOpt, ht, htne]

/-- C3 as amended, witnessed with a collaborator that always answers
`"ok"`. -/
theorem getBrowseAnswer_all_or_nothing_witness :
    ((∃ chunk ∈ browseChunks bigS,
        (getAiResponse (constOkAi (mkChunkPrompt chunk [])) 2).result = none) →
      getBrowseAnswer constOkAi bigS [] 2 = none)
    ∧ ((∀ chunk ∈ browseChunks bigS, ∃ t,
          (getAiResponse (constOkAi (mkChunkPrompt chunk [])) 2).result = some t ∧ t ≠ []) →
      getBrowseAnswer constOkAi bigS [] 2
        = some (splitNote ++ wrapAll 1 ((browseChunks bigS).map fun chunk =>
            ((getAiResponse (constOkAi (mkChunkPrompt chunk [])) 2).result).getD []))) :=
  getBrowseAnswer_all_or_nothing constOkAi bigS [] 2 (by simp [bigS])

/-! ## The completion retry loop (C8) -/

lemma range_map_add_succ (i r : Nat) :
    (List.range (r + 1)).map (fun t => i + t)
      = i :: (List.range r).map (fun t => (i + 1) + t) := by
  have hfun : (fun t => i + t) ∘ Nat.succ = fun t => (i + 1) + t := by
    funext t
    simp [Function.comp]
    omega
  rw [List.range_succ_eq_map, List.map_cons, List.map_map, hfun]
  simp

lemma aiLoop_all_none (env : Nat → Option Str) (m : Nat) :
    ∀ r i, (∀ j, j < r → env (i + j) = none) →
      aiLoop env m i r = ⟨none, m,
        (((List.range r).map (fun t => i + t)).filter (fun j => decide (j < m - 1))).map
          (fun j => 1000 * 2 ^ j)⟩ := by
  intro r
  induction r with
  | zero => intro i h; simp [aiLoop]
  | succ r ih =>
    intro i h
    have h0 : env i = none := by simpa using h 0 (Nat.succ_pos r)
    have hrec := ih (i + 1) (fun j hj => by
      have h2 := h (j + 1) (by omega)
      have heq : i + (j + 1) = i + 1 + j := by omega
      rw [heq] at h2
      exact h2)
    simp only [aiLoop, h0]
    rw [hrec]
    rw [AiRun.mk.injEq]
    refine ⟨rfl, rfl, ?_⟩
    rw [range_map_add_succ]
    by_cases hi : i < m - 1 <;> simp [List.filter_cons, hi]

lemma aiLoop_first_some (env : Nat → Option Str) (m : Nat) :
    ∀ r i k c, k < r → (∀ j, j < k → env (i + j) = none) → env (i + k) = some c →
      aiLoop env m i r = ⟨some (trimStr (stripThink c)), i + k + 1,
        (((List.range k).map (fun t => i + t)).filter (fun j => decide (j < m - 1))).map
          (fun j => 1000 * 2 ^ j)⟩ := by
  intro r
  induction r with
  | zero => intro i k c hk _ _; omega
  | succ r ih =>
    intro i k c hk hprev hc
    cases k with
    | zero =>
      have hc0 : env i = some c := by simpa using hc
      simp [aiLoop, hc0]
    | succ k =>
      have h0 : env i = none := by simpa using hprev 0 (Nat.succ_pos k)
      have hrec := ih (i + 1) k c (by omega)
        (fun j hj => by
          have h2 := hprev (j + 1) (by omega)
          have heq : i + (j + 1) = i + 1 + j := by omega
          rw [heq] at h2
          exact h2)
        (by
          have heq : i + (k + 1) = i + 1 + k := by omega
          rw [heq] at hc
          exact hc)
    
      simp only [aiLoop, h0]
      rw [hrec]
      rw [AiRun.mk.injEq]
      refine ⟨rfl, by show i + 1 + k + 1 = i + (k + 1) + 1; omega, ?_⟩
      rw [range_map_add_succ]
      by_cases hi : i < m - 1 <;> simp [List.filter_cons, hi]

lemma range_filter_lt_pred (n : Nat) :
    (List.range n).filter (fun j => decide (j < n - 1)) = List.range (n - 1) := by
  cases n with
  | zero => simp
  | succ m =>
    rw [List.range_succ, List.filter_append]
    have h1 : (List.range m).filter (fun j => decide (j < m + 1 - 1)) = List.range m := by
      apply List.filter_eq_self.mpr
      intro a ha
      simp only [List.mem_range] at ha
      simp
      omega
    simp [h1]

lemma env_first_success (env : Nat → Option Str) (n : Nat) :
    (∀ i, i < n → env i = none)
      ∨ ∃ k c, k < n ∧ (∀ j, j < k → env j = none) ∧ env k = some c := by
  classical
  by_cases h : ∀ i, i < n → env i = none
  · exact Or.inl h
  · push_neg at h
    obtain ⟨i, hi, hne⟩ := h
    have hex : ∃ j, j < n ∧ env j ≠ none := ⟨i, hi, hne⟩
    obtain ⟨hkn, hkne⟩ := Nat.find_spec hex
    right
    cases henv : env (Nat.find hex) with
    | none => exact absurd henv hkne
    | some c =>
      refine ⟨Nat.find hex, c, hkn, ?_, henv⟩
      intro j hj
      have hmin := Nat.find_min hex hj
      by_contra hne2
      exact hmin ⟨by omega, hne2⟩

/-- C8. `getAiResponse` with budget `n` makes at most `n` completion calls;
it returns the `null` sentinel exactly when all `n` attempts fail, in which
case it slept `1000 * 2^i` milliseconds after each failed attempt
`i < n - 1`; and when attempt `k` is the first to succeed with content `c`
it returns `c` with every reasoning block stripped and trimmed, having made
`k + 1` calls and slept `1000 * 2^i` milliseconds after each failed attempt
`i < k`. -/
theorem getAiResponse_spec (env : Nat → Option Str) (n : Nat) :
    (getAiResponse env n).attempts ≤ n
    ∧ ((getAiResponse env n).result = none ↔ ∀ i, i < n → env i = none)
    ∧ (∀ k c, k < n → (∀ j, j < k → env j = none) → env k = some c →
        (getAiResponse env n).result = some (trimStr (stripThink c))
        ∧ (getAiResponse env n).attempts = k + 1
        ∧ (getAiResponse env n).sleeps = (List.range k).map fun i => 1000 * 2 ^ i)
    ∧ ((∀ i, i < n → env i = none) →
        (getAiResponse env n).sleeps = (List.range (n - 1)).map fun i => 1000 * 2 ^ i) := by
  have hall : ∀ (h : ∀ i, i < n → env i = none),
      getAiResponse env n = ⟨none, n,
        (List.range (n - 1)).map fun i => 1000 * 2 ^ i⟩ := by
    intro h
    show aiLoop env n 0 n = _
    rw [aiLoop_all_none env n n 0 (fun j hj => by simpa using h j hj)]
    rw [AiRun.mk.injEq]
    refine ⟨rfl, rfl, ?_⟩
    have hzero : (List.range n).map (fun t => 0 + t) = List.range n := by simp
    rw [hzero, range_filter_lt_pred]
  have hfirst : ∀ k c, k < n → (∀ j, j < k → env j = none) → env k = some c →
      getAiResponse env n = ⟨some (trimStr (stripThink c)), k + 1,
        (List.range k).map fun i => 1000 * 2 ^ i⟩ := by
    intro k c hk hprev hc
    show aiLoop env n 0 n = _
    rw [aiLoop_first_some env n n 0 k c hk (fun j hj => by simpa using hprev j hj)
      (by simpa using hc)]
    rw [AiRun.mk.injEq]
    refine ⟨rfl, by show 0 + k + 1 = k + 1; omega, ?_⟩
    have hzero : (List.range k).map (fun t => 0 + t) = List.range k := by simp
    rw [hzero]
    have hkeep : (List.range k).filter (fun j => decide (j < n - 1)) = List.range k := by
      apply List.filter_eq_self.mpr
      intro a ha
      simp only [List.mem_range] at ha
      simp
      omega
    rw [hkeep]
  refine ⟨?_, ⟨?_, ?_⟩, ?_, ?_⟩
  · rcases env_first_success env n with h | ⟨k, c, hk, hprev, hc⟩
    · rw [hall h]
    · rw [hfirst k c hk hprev hc]
      simpa using hk
  · intro hres
    rcases env_first_success env n with h | ⟨k, c, hk, hprev, hc⟩
    · exact h
    · rw [hfirst k c hk hprev hc] at hres
      simp at hres
  · intro h
    rw [hall h]
  · intro k c hk hprev hc
    rw [hfirst k c hk hprev hc]
    exact ⟨rfl, rfl, rfl⟩
  · intro h
    rw [hall h]

/-! ## The page-fetch client-error bailout (C9) -/

lemma browseFetchLoop_denied (env : Nat → Except Str Str) :
    ∀ r i k m, k < r → (∀ j, j < k → fetchContinues (env (i + j))) →
      env (i + k) = .error m → containsSub (chars "Client Error") m = true →
      browseFetchLoop env [] i r = .denied (i + k + 1) := by
  intro r
  induction r with
  | zero => intro i k m hk _ _ _; omega
  | succ r ih =>
    intro i k m hk hprev herr hce
    cases k with
    | zero =>
      have herr0 : env i = .error m := by simpa using herr
      simp [browseFetchLoop, herr0, hce]
    | succ k =>
      have h0 : fetchContinues (env i) := by simpa using hprev 0 (Nat.succ_pos k)
      have hshift : ∀ j, j < k → fetchContinues (env (i + 1 + j)) := by
        intro j hj
        have h2 := hprev (j + 1) (by omega)
        have heq : i + (j + 1) = i + 1 + j := by omega
        rw [heq] at h2
        exact h2
      have herr2 : env (i + 1 + k) = .error m := by
        have heq : i + (k + 1) = i + 1 + k := by omega
        rw [heq] at herr
        exact herr
      have hrec := ih (i + 1) k m (by omega) hshift herr2 hce
      have hres : i + 1 + k + 1 = i + (k + 1) + 1 := by omega
      cases henv0 : env i with
      | ok t =>
        rw [henv0] at h0
        have ht : t = [] := by simpa [fetchContinues] using h0
        subst ht
        simp only [browseFetchLoop, henv0, if_pos]
        rw [hrec, hres]
      | error m0 =>
        rw [henv0] at h0
        have hm0 : containsSub (chars "Client Error") m0 = false := by
          simpa [fetchContinues] using h0
        simp only [browseFetchLoop, henv0, hm0, Bool.false_eq_true, if_false]
        rw [hrec, hres]

/-- C9. When fetch attempt `k` throws an error whose message contains
"Client Error" (all earlier attempts having thrown non-client errors or
returned empty text), `getBrowseResults` returns the denial message at
once: it makes exactly `k + 1` fetch calls, leaving the rest of the retry
budget unused, and never invokes the answerer pipeline. -/
theorem getBrowseResults_client_error (fetchEnv : Nat → Except Str Str)
    (aiEnv : Str → Nat → Option Str) (q : Str) (maxRetry k : Nat) (m : Str)
    (hk : k < maxRetry)
    (hprev : ∀ j, j < k → fetchContinues (fetchEnv j))
    (herr : fetchEnv k = .error m)
    (hce : containsSub (chars "Client Error") m = true) :
    getBrowseResults fetchEnv aiEnv q maxRetry = ⟨deniedMsg, k + 1, false⟩ := by
  have hloop := browseFetchLoop_denied fetchEnv maxRetry 0 k m hk
    (fun j hj => by simpa using hprev j hj) (by simpa using herr) hce
  have hzero : (0 : Nat) + k + 1 = k + 1 := by omega
  rw [hzero] at hloop
  unfold getBrowseResults
  rw [hloop]

/-- C9, witnessed on a first-attempt client error with budget 3. -/
theorem getBrowseResults_client_error_witness :
    getBrowseResults (fun _ => Except.error (chars "HTTP 403 Client Error")) constOkAi [] 3
      = ⟨deniedMsg, 1, false⟩ :=
  getBrowseResults_client_error _ constOkAi [] 3 0 (chars "HTTP 403 Client Error")
    (by omega) (fun j hj => absurd hj (by omega)) rfl (by decide)

/-! ## The quoted-query fallback (C4) -/

lemma getSearchResults_unfold (env : Str → Nat → Option (List SearchResult))
    (query : Str) (n : Nat) :
    getSearchResults env query n
      = if trimStr query = [] then emptySearchMsg
        else
          let sourceText := searchLoop (env query) [] 0 n
          if sourceText = [] then
            if query.contains '"' then
              let fallback := getSearchResults env (removeQuotes query) 3
              if fallback ≠ [] ∧ containsSub (chars "Please try again") fallback = false then
                fallbackMessage query ++ chars "\n\n" ++ fallback
              else emptySearchMsg
            else emptySearchMsg
          else sourceText := by
  rw [getSearchResults]
  simp only [dite_eq_ite]

lemma removeQuotes_no_quote (q : Str) : (removeQuotes q).contains '"' = false := by
  by_contra h
  rw [Bool.not_eq_false] at h
  have hmem : '"' ∈ removeQuotes q := by simpa [List.contains] using h
  rcases List.mem_filter.mp hmem with ⟨_, hpred⟩
  simp at hpred

lemma getSearchResults_no_quote (env : Str → Nat → Option (List SearchResult))
    (q : Str) (n : Nat) (h : q.contains '"' = false) :
    getSearchResults env q n = getSearchResultsOnce env q n := by
  rw [getSearchResults_unfold, getSearchResultsOnce]
  simp only [h, Bool.false_eq_true, if_false]

lemma searchLoop_all_empty (env : Nat → Option (List SearchResult)) :
    ∀ r i, (∀ j, j < r → searchAttemptEmpty env (i + j)) → searchLoop env [] i r = [] := by
  intro r
  induction r with
  | zero => intro i _; rfl
  | succ r ih =>
    intro i h
    have h0 : searchAttemptEmpty env i := by simpa using h 0 (Nat.succ_pos r)
    have hshift : ∀ j, j < r → searchAttemptEmpty env (i + 1 + j) := by
      intro j hj
      have h2 := h (j + 1) (by omega)
      have heq : i + (j + 1) = i + 1 + j := by omega
      rw [heq] at h2
      exact h2
    cases henv : env i with
    | none =>
      simp only [searchLoop, henv]
      exact ih (i + 1) hshift
    | some rs =>
      rw [searchAttemptEmpty, henv] at h0
      simp only [searchLoop, henv, h0, if_pos]
      exact ih (i + 1) hshift

lemma searchLoop_first_hit (env : Nat → Option (List SearchResult)) :
    ∀ r i k rs, k < r → (∀ j, j < k → searchAttemptEmpty env (i + j)) →
      env (i + k) = some rs → getBriefText rs ≠ [] →
      searchLoop env [] i r = getBriefText rs := by
  intro r
  induction r with
  | zero => intro i k rs hk _ _ _; omega
  | succ r ih =>
    intro i k rs hk hprev henv hbne
    cases k with
    | zero =>
      have henv0 : env i = some rs := by simpa using henv
      simp only [searchLoop, henv0]
      rw [if_neg hbne]
    | succ k =>
      have h0 : searchAttemptEmpty env i := by simpa using hprev 0 (Nat.succ_pos k)
      have hshift : ∀ j, j < k → searchAttemptEmpty env (i + 1 + j) := by
        intro j hj
        have h2 := hprev (j + 1) (by omega)
        have heq : i + (j + 1) = i + 1 + j := by omega
        rw [heq] at h2
        exact h2
      have henv2 : env (i + 1 + k) = some rs := by
        have heq : i + (k + 1) = i + 1 + k := by omega
        rw [heq] at henv
        exact henv
      have hrec := ih (i + 1) k rs (by omega) hshift henv2 hbne
      cases henv0 : env i with
      | none =>
        simp only [searchLoop, henv0]
        exact hrec
      | some rs0 =>
        rw [searchAttemptEmpty, henv0] at h0
        simp only [searchLoop, henv0, h0, if_pos]
        exact hrec

/-- C4. For a non-blank query that contains a double quote and whose own
retrieval attempts all yield empty content: the cleaned query contains no
quote, so the single fallback call cannot recurse further (it behaves as
the fallback-free `getSearchResultsOnce`); if the cleaned query's retrieval
is also empty the generic empty-result message is returned; and if the
cleaned query's retrieval first succeeds with non-empty brief text (that
does not itself contain "Please try again"), the result is the explanatory
prefix followed by that fallback text. -/
theorem getSearchResults_quoted_fallback (env : Str → Nat → Option (List SearchResult))
    (query : Str) (maxRetry : Nat)
    (hTrim : trimStr query ≠ [])
    (hQuote : query.contains '"' = true)
    (hEmpty : ∀ j, j < maxRetry → searchAttemptEmpty (env query) j) :
    (removeQuotes query).contains '"' = false
    ∧ getSearchResults env (removeQuotes query) 3
        = getSearchResultsOnce env (removeQuotes query) 3
    ∧ ((∀ j, j < 3 → searchAttemptEmpty (env (removeQuotes query)) j) →
        getSearchResults env query maxRetry = emptySearchMsg)
    ∧ (∀ k rs, k < 3 → (∀ j, j < k → searchAttemptEmpty (env (removeQuotes query)) j) →
        env (removeQuotes query) k = some rs → getBriefText rs ≠ [] →
        trimStr (removeQuotes query) ≠ [] →
        containsSub (chars "Please try again") (getBriefText rs) = false →
        getSearchResults env query maxRetry
          = fallbackMessage query ++ chars "\n\n" ++ getBriefText rs) := by
  have hLoop : searchLoop (env query) [] 0 maxRetry = [] :=
    searchLoop_all_empty _ maxRetry 0 (fun j hj => by simpa using hEmpty j hj)
  have hPT : containsSub (chars "Please try again") emptySearchMsg = true := by decide
  refine ⟨removeQuotes_no_quote query,
    getSearchResults_no_quote env _ 3 (removeQuotes_no_quote query), ?_, ?_⟩
  · intro hclean
    have hFall : getSearchResults env (removeQuotes query) 3 = emptySearchMsg := by
      rw [getSearchResults_no_quote env _ 3 (removeQuotes_no_quote query)]
      unfold getSearchResultsOnce
      by_cases ht : trimStr (removeQuotes query) = []
      · simp [ht]
      · have hL2 : searchLoop (env (removeQuotes query)) [] 0 3 = [] :=
          searchLoop_all_empty _ 3 0 (fun j hj => by simpa using hclean j hj)
        simp [ht, hL2]
    rw [getSearchResults_unfold]
    rw [if_neg hTrim]
    simp only [hLoop, hQuote, hFall, hPT]
    simp
  · intro k rs hk hprevC henvC hbne htrimC hnotPT
    have hT : searchLoop (env (removeQuotes query)) [] 0 3 = getBriefText rs :=
      searchLoop_first_hit _ 3 0 k rs hk (fun j hj => by simpa using hprevC j hj)
        (by simpa using henvC) hbne
    have hFall2 : getSearchResults env (removeQuotes query) 3 = getBriefText rs := by
      rw [getSearchResults_no_quote env _ 3 (removeQuotes_no_quote query)]
      unfold getSearchResultsOnce
      rw [if_neg htrimC]
      simp only [hT]
      rw [if_neg hbne]
    rw [getSearchResults_unfold]
    rw [if_neg hTrim]
    simp only [hLoop, hQuote, hFall2]
    simp [hbne, hnotPT]

/-- C4, witnessed: the query `"a"` (with quotes) finds nothing on every
attempt, the cleaned query `a` succeeds at once with one search result. -/
theorem getSearchResults_quoted_fallback_witness :
    (removeQuotes (chars "\"a\"")).contains '"' = false
    ∧ getSearchResults oneHitSearchEnv (removeQuotes (chars "\"a\"")) 3
        = getSearchResultsOnce oneHitSearchEnv (removeQuotes (chars "\"a\"")) 3
    ∧ ((∀ j, j < 3 → searchAttemptEmpty (oneHitSearchEnv (removeQuotes (chars "\"a\""))) j) →
        getSearchResults oneHitSearchEnv (chars "\"a\"") 3 = emptySearchMsg)
    ∧ (∀ k rs, k < 3 →
        (∀ j, j < k → searchAttemptEmpty (oneHitSearchEnv (removeQuotes (chars "\"a\""))) j) →
        oneHitSearchEnv (removeQuotes (chars "\"a\"")) k = some rs → getBriefText rs ≠ [] →
        trimStr (removeQuotes (chars "\"a\"")) ≠ [] →
        containsSub (chars "Please try again") (getBriefText rs) = false →
        getSearchResults oneHitSearchEnv (chars "\"a\"") 3
          = fallbackMessage (chars "\"a\"") ++ chars "\n\n" ++ getBriefText rs) :=
  getSearchResults_quoted_fallback oneHitSearchEnv (chars "\"a\"") 3
    (by decide) (by decide)
    (fun j hj => by
      have hne : ¬(chars "\"a\"" = chars "a") := by decide
      simp [searchAttemptEmpty, oneHitSearchEnv, if_neg hne])

/-! ## Order preservation of the multi-tools (C5) -/

lemma joinSep_cons_ne (sep a : Str) {l : List Str} (h : l ≠ []) :
    joinSep sep (a :: l) = a ++ sep ++ joinSep sep l := by
  cases l with
  | nil => exact absurd rfl h
  | cons b bs => rfl

lemma joinSep_map_single {α : Type} (sep : Str) (f : α → Str) (d : α) :
    ∀ (l : List α) (k : Nat), k < l.length →
      ∃ u w, joinSep sep (l.map f) = u ++ f (l.getD k d) ++ w := by
  intro l
  induction l with
  | nil => intro k hk; simp at hk
  | cons x xs ih =>
    intro k hk
    cases k with
    | zero =>
      cases xs with
      | nil => exact ⟨[], [], by simp [joinSep]⟩
      | cons y ys =>
        refine ⟨[], sep ++ joinSep sep ((y :: ys).map f), ?_⟩
        rw [List.map_cons, joinSep_cons_ne sep (f x) (by simp)]
        simp [List.append_assoc]
    | succ k =>
      have hxk : k < xs.length := by simpa using hk
      have hxs : xs ≠ [] := List.ne_nil_of_length_pos (by omega)
      obtain ⟨u, w, hu⟩ := ih k hxk
      refine ⟨f x ++ sep ++ u, w, ?_⟩
      rw [List.map_cons, joinSep_cons_ne sep (f x) (by simpa [List.map_eq_nil_iff] using hxs), hu]
      simp [List.append_assoc]

lemma joinSep_map_pair {α : Type} (sep : Str) (f : α → Str) (d : α) :
    ∀ (l : List α) (i j : Nat), i < j → j < l.length →
      ∃ u v w, joinSep sep (l.map f)
        = u ++ f (l.getD i d) ++ v ++ f (l.getD j d) ++ w := by
  intro l
  induction l with
  | nil => intro i j hij hj; simp at hj
  | cons x xs ih =>
    intro i j hij hj
    cases j with
    | zero => omega
    | succ j =>
      have hjx : j < xs.length := by simpa using hj
      have hxs : xs ≠ [] := List.ne_nil_of_length_pos (by omega)
      cases i with
      | zero =>
        obtain ⟨u, w, hu⟩ := joinSep_map_single sep f d xs j hjx
        refine ⟨[], sep ++ u, w, ?_⟩
        rw [List.map_cons, joinSep_cons_ne sep (f x) (by simpa [List.map_eq_nil_iff] using hxs),
          hu]
        simp [List.append_assoc]
      | succ i =>
        obtain ⟨u, v, w, hu⟩ := ih i j (by omega) hjx
        refine ⟨f x ++ sep ++ u, v, w, ?_⟩
        rw [List.map_cons, joinSep_cons_ne sep (f x) (by simpa [List.map_eq_nil_iff] using hxs),
          hu]
        simp [List.append_assoc]

/-- C5. In both `multi_search` and `multi_browse`, for any two input
positions `i < j`, the delimited block of item `i` appears before the
delimited block of item `j` in the joined output, whatever the
collaborators do: the handlers join per-item blocks in input order. -/
theorem multiTools_order (qs : List Str) (i j : Nat) (hij : i < j) (hj : j < qs.length) :
    (∀ env, ∃ u v w, multiSearch env qs
        = u ++ searchBlock env (qs.getD i []) ++ v ++ searchBlock env (qs.getD j []) ++ w)
    ∧ (∀ fetchOf aiEnv query, ∃ u v w, multiBrowse fetchOf aiEnv qs query
        = u ++ browseBlock fetchOf aiEnv query (qs.getD i []) ++ v
            ++ browseBlock fetchOf aiEnv query (qs.getD j []) ++ w) := by
  constructor
  · intro env
    exact joinSep_map_pair (chars "\n\n") (searchBlock env) [] qs i j hij hj
  · intro fetchOf aiEnv query
    exact joinSep_map_pair (chars "\n\n") (browseBlock fetchOf aiEnv query) [] qs i j hij hj

/-- C5, witnessed on the two-element batch `["q1", "q2"]`. -/
theorem multiTools_order_witness :
    (∀ env, ∃ u v w, multiSearch env [chars "q1", chars "q2"]
        = u ++ searchBlock env ([chars "q1", chars "q2"].getD 0 []) ++ v
            ++ searchBlock env ([chars "q1", chars "q2"].getD 1 []) ++ w)
    ∧ (∀ fetchOf aiEnv query, ∃ u v w, multiBrowse fetchOf aiEnv [chars "q1", chars "q2"] query
        = u ++ browseBlock fetchOf aiEnv query ([chars "q1", chars "q2"].getD 0 []) ++ v
            ++ browseBlock fetchOf aiEnv query ([chars "q1", chars "q2"].getD 1 []) ++ w) :=
  multiTools_order [chars "q1", chars "q2"] 0 1 (by omega) (by simp)

/-! ## The dispatcher (C6, C7) -/

/-- C6. A `tools/call` for a name outside the registry is answered with 202
and a single JSON-RPC error frame, code −32601, message "Tool not found",
correlated to the request's id, written onto the session's stream. -/
theorem dispatcher_tool_not_found (sessions : List String)
    (exec : String → String → Except String String) (sid : String) (req : RpcRequest)
    (hs : sessions.contains sid = true)
    (hm : req.method = "tools/call")
    (ht : knownTools.contains req.toolName = false) :
    handlePost sessions exec (some sid) req
      = (202, [RpcEvent.rpcError req.id (-32601) "Tool not found"]) := by
  have hs2 : sid ∈ sessions := by simpa using hs
  have ht2 : req.toolName ∉ knownTools := by simpa using ht
  simp [handlePost, hs2, hm, ht2]

/-- C6, witnessed on the unregistered tool name `nope`. -/
theorem dispatcher_tool_not_found_witness :
    handlePost ["s"] (fun _ _ => Except.ok "") (some "s") ⟨"tools/call", 7, "nope", ""⟩
      = (202, [RpcEvent.rpcError 7 (-32601) "Tool not found"]) :=
  dispatcher_tool_not_found ["s"] (fun _ _ => Except.ok "") "s"
    ⟨"tools/call", 7, "nope", ""⟩ (by decide) rfl (by decide)

/-- C7. The submission endpoint's status codes: 400 when the session id
parameter is missing; 404 when the id is not in the registry, whatever the
body; 202 for each recognized method; 501 for any other method. -/
theorem dispatcher_status_codes (sessions : List String)
    (exec : String → String → Except String String) (req : RpcRequest) :
    (handlePost sessions exec none req).1 = 400
    ∧ (∀ sid, sessions.contains sid = false →
        (handlePost sessions exec (some sid) req).1 = 404)
    ∧ (∀ sid, sessions.contains sid = true →
        (req.method = "tools/list" ∨ req.method = "tools/call"
          ∨ req.method = "initialize" ∨ req.method = "notifications/initialized") →
        (handlePost sessions exec (some sid) req).1 = 202)
    ∧ (∀ sid, sessions.contains sid = true →
        req.method ≠ "tools/list" → req.method ≠ "tools/call" →
        req.method ≠ "initialize" → req.method ≠ "notifications/initialized" →
        (handlePost sessions exec (some sid) req).1 = 501) := by
  refine ⟨rfl, ?_, ?_, ?_⟩
  · intro sid hs
    have hs2 : sid ∉ sessions := by simpa using hs
    simp [handlePost, hs2]
  · intro sid hs hm
    have hs2 : sid ∈ sessions := by simpa using hs
    rcases hm with hm | hm | hm | hm
    · simp [handlePost, hs2, hm]
    · by_cases htool : req.toolName ∈ knownTools
      · simp [handlePost, hs2, hm, htool]
      · simp [handlePost, hs2, hm, htool]
    · simp [handlePost, hs2, hm]
    · simp [handlePost, hs2, hm]
  · intro sid hs h1 h2 h3 h4
    have hs2 : sid ∈ sessions := by simpa using hs
    simp [handlePost, hs2, h1, h2, h3, h4]
